import Mathlib

/-!
# Verification of the tail-f log streaming core

Shallow embedding, in Lean 4, of the security validator, the remote tail
adapter, the SSH connection pool reaper and the local tail session of the
tail-f repository (`backend/security.py`, `backend/ssh_manager.py`,
`backend/log_core.py`), together with theorems settling the specification
claims about them.

Modelling conventions:
* Python strings are Lean `String`s; character-level work happens on
  `String.data` (`List Char`) so that every definition evaluates by kernel
  reduction.
* Byte offsets and file sizes are counted in characters (the sources open
  files in text mode and mix `os.path.getsize` with text-mode offsets in the
  same way).
* The remote side (SSH) is abstracted as the data it returns: whether the
  connection attempt succeeds, the output of the size query, the lines of the
  history read, and the sequence of results of the blocking line reads.
* Generators are modelled as the finite list of records they yield before the
  consumer stops listening; remote commands issued through the connection are
  collected in an explicit event trace.
-/

namespace TailF

/-! ## Python string primitives (`str.strip`, `str.split`, `str.lower`) -/

/-- The code points treated as whitespace by Python's `str.strip()` /
`str.split()` (`Py_UNICODE_ISSPACE`): ASCII whitespace, the C0/C1
separators, NEL, and the Unicode space separators. -/
def PY_WHITESPACE_CODES : List Nat :=
  [0x09, 0x0a, 0x0b, 0x0c, 0x0d, 0x1c, 0x1d, 0x1e, 0x1f, 0x20, 0x85, 0xa0,
   0x1680, 0x2000, 0x2001, 0x2002, 0x2003, 0x2004, 0x2005, 0x2006, 0x2007,
   0x2008, 0x2009, 0x200a, 0x2028, 0x2029, 0x202f, 0x205f, 0x3000]

/-- Whether Python treats `c` as whitespace. -/
def pyIsSpace (c : Char) : Bool :=
  PY_WHITESPACE_CODES.contains c.toNat

/-- Python `str.strip()` on the character list: drop whitespace from both
ends. -/
def pyStripL (cs : List Char) : List Char :=
  ((cs.dropWhile pyIsSpace).reverse.dropWhile pyIsSpace).reverse

/-- Python `str.strip()`. -/
def pyStrip (s : String) : String :=
  ⟨pyStripL s.data⟩

/-- Worker for Python `str.split()` (split on whitespace runs, no empty
words): `acc` holds the reversed characters of the word being read. -/
def pyWordsAux : List Char → List Char → List String
  | [], [] => []
  | [], acc => [⟨acc.reverse⟩]
  | c :: cs, acc =>
    match pyIsSpace c, acc with
    | true, [] => pyWordsAux cs []
    | true, acc => ⟨acc.reverse⟩ :: pyWordsAux cs []
    | false, acc => pyWordsAux cs (c :: acc)

/-- Python `str.split()` with no separator argument. -/
def pyWordsL (cs : List Char) : List String :=
  pyWordsAux cs []

/-- The first whitespace-delimited token of a string (`""` when there is
none). -/
def firstToken (s : String) : String :=
  (pyWordsL s.data).headD ""

/-- Python `str.lower()`, restricted to the ASCII case mapping (the paths and
patterns involved are ASCII). -/
def pyLowerL (cs : List Char) : List Char :=
  cs.map Char.toLower

/-! ## `posixpath.normpath` / `abspath` / `join` (used by `os.path` on the
POSIX hosts the code targets) -/

/-- Python `path.split('/')`. -/
def splitOnSlash : List Char → List (List Char)
  | [] => [[]]
  | '/' :: rest => [] :: splitOnSlash rest
  | c :: rest =>
    match splitOnSlash rest with
    | [] => [[c]]
    | g :: gs => (c :: g) :: gs

/-- Python `'/'.join(comps)`. -/
def joinSlash : List (List Char) → List Char
  | [] => []
  | [x] => x
  | x :: xs => x ++ '/' :: joinSlash xs

/-- `posixpath.normpath`: collapse `.`, `..` and repeated separators, keeping
a double initial slash when POSIX mandates it. -/
def normpathL (cs : List Char) : List Char :=
  if cs = [] then ['.'] else
  let initialSlashes : Nat :=
    if cs.head? = some '/' then
      if cs.take 2 = ['/', '/'] ∧ cs.take 3 ≠ ['/', '/', '/'] then 2 else 1
    else 0
  let newComps := (splitOnSlash cs).foldl (fun acc comp =>
    if comp = [] ∨ comp = ['.'] then acc
    else if comp ≠ ['.', '.'] ∨ (initialSlashes = 0 ∧ acc = []) ∨
        (acc ≠ [] ∧ acc.getLast? = some ['.', '.']) then acc ++ [comp]
    else if acc ≠ [] then acc.dropLast
    else acc) []
  let p := List.replicate initialSlashes '/' ++ joinSlash newComps
  if p = [] then ['.'] else p

/-- `posixpath.join` on two components. -/
def joinPathL (a b : List Char) : List Char :=
  if b.head? = some '/' then b
  else if a = [] ∨ a.getLast? = some '/' then a ++ b
  else a ++ '/' :: b

/-- `posixpath.abspath`, with the process working directory `cwd` passed
explicitly in place of `os.getcwd()`. -/
def abspathL (cwd p : List Char) : List Char :=
  if p.head? = some '/' then normpathL p
  else normpathL (joinPathL cwd p)

/-! ## `backend/security.py` — `SecurityValidator` -/

/-- `SecurityValidator.ALLOWED_COMMANDS`. -/
def ALLOWED_COMMANDS : List String :=
  ["tail", "cat", "head", "ls", "find"]

/-- The `dangerous_chars` list of `validate_command`
(`; | & $ \x60 > < \n \r`). -/
def DANGEROUS_CHARS : List Char :=
  [';', '|', '&', '$', '\x60', '>', '<', '\n', '\r']

/-- Substring test (`re.search` of a literal pattern). -/
def containsSubL (pat : List Char) : List Char → Bool
  | [] => pat.isEmpty
  | c :: rest => pat.isPrefixOf (c :: rest) || containsSubL pat rest

/-- `re.search(pat ++ "$", s)` for a literal `pat`: the anchor also matches
just before one trailing newline. -/
def suffixDollar (pat l : List Char) : Bool :=
  pat.isSuffixOf l || (pat ++ ['\n']).isSuffixOf l

/-- The `DANGEROUS_PATTERNS` blacklist scan of `validate_path`: each pattern
is searched case-insensitively (`re.IGNORECASE`) in the resolved path.  The
patterns are literal substrings except `\.pem$` / `\.key$`, which are
end-anchored. -/
def isDangerousL (p : List Char) : Bool :=
  let l := pyLowerL p
  containsSubL "..".data l ||
  containsSubL "/etc/shadow".data l ||
  containsSubL "/etc/passwd".data l ||
  containsSubL "/root/.ssh".data l ||
  suffixDollar ".pem".data l ||
  suffixDollar ".key".data l ||
  containsSubL "/proc/".data l ||
  containsSubL "/sys/".data l

/-- The canonical form `os.path.abspath(os.path.normpath(path))` that
`validate_path` computes, with the working directory explicit. -/
def resolvedPath (cwd path : String) : List Char :=
  abspathL cwd.data (normpathL path.data)

/-- `SecurityValidator.validate_path`: canonicalize, reject on the blacklist,
reject an empty allow-list, accept iff the canonical path starts with some
canonicalized allowed prefix (plain string-prefix test). -/
def validate_path (cwd : String) (path : String) (allowed_paths : List String) : Bool :=
  let resolved := resolvedPath cwd path
  if isDangerousL resolved then false
  else if allowed_paths = [] then false
  else allowed_paths.any fun allowed =>
    (abspathL cwd.data (normpathL allowed.data)).isPrefixOf resolved

/-- `SecurityValidator.validate_command`: the first token of the stripped
command must be allow-listed and the whole command must avoid the dangerous
characters. -/
def validate_command (command : String) : Bool :=
  let stripped := pyStripL command.data
  let cmd_name : String := if stripped = [] then "" else (pyWordsL stripped).headD ""
  if ¬ ALLOWED_COMMANDS.contains cmd_name then false
  else if DANGEROUS_CHARS.any (fun c => command.data.contains c) then false
  else true

/-- `SecurityValidator.check_file_size` (the source's default for `max_size`
is 104857600). -/
def check_file_size (size : Int) (max_size : Int) : Bool :=
  0 ≤ size && size ≤ max_size

/-! ## ANSI stripping (`ANSI_ESCAPE_PATTERN`, identical in
`backend/ssh_manager.py` and `backend/log_core.py`)

The pattern is an alternation of `ESC [ , params, intermediates, final` and a bare `[ digits-or-semicolons m`, substituted by `''`
with `re.sub` (leftmost match, first alternative first).  Since the three
character classes of the first alternative are pairwise disjoint, and `m`
is not a digit or semicolon, greedy matching never backtracks, so matching
is deterministic. -/

/-- `[0-?]` (0x30–0x3F). -/
def ansiParamChar (c : Char) : Bool :=
  0x30 ≤ c.toNat && c.toNat ≤ 0x3f

/-- The intermediate-byte class (0x20–0x2F). -/
def ansiInterChar (c : Char) : Bool :=
  0x20 ≤ c.toNat && c.toNat ≤ 0x2f

/-- `[@-~]` (0x40–0x7E). -/
def ansiFinalChar (c : Char) : Bool :=
  0x40 ≤ c.toNat && c.toNat ≤ 0x7e

/-- `[0-9;]`. -/
def digitSemiChar (c : Char) : Bool :=
  ('0' ≤ c && c ≤ '9') || c = ';'

/-- First alternative (ESC `[`, then param bytes, intermediate bytes, one final byte): returns the match length. -/
def tryEsc : List Char → Option Nat
  | '\x1b' :: '[' :: rest =>
    let n1 := (rest.takeWhile ansiParamChar).length
    let r1 := rest.drop n1
    let n2 := (r1.takeWhile ansiInterChar).length
    match r1.drop n2 with
    | c :: _ => if ansiFinalChar c then some (n1 + n2 + 3) else none
    | [] => none
  | _ => none

/-- Second alternative `\[[0-9;]+m`: returns the match length. -/
def tryBare : List Char → Option Nat
  | '[' :: rest =>
    let n := (rest.takeWhile digitSemiChar).length
    if n = 0 then none
    else
      match rest.drop n with
      | 'm' :: _ => some (n + 2)
      | _ => none
  | _ => none

/-- Match of the whole alternation at the start of `l`. -/
def tryMatch (l : List Char) : Option Nat :=
  match tryEsc l with
  | some n => some n
  | none => tryBare l

/-- `re.sub(pattern, '', _)`: scan left to right, delete each leftmost match,
resume after it.  `fuel` (instantiated with the list length) only forces
structural recursion; every match has length ≥ 3, so each step consumes at
least one character and the fuel never runs out. -/
def ansiSubFuel : Nat → List Char → List Char
  | 0, l => l
  | _ + 1, [] => []
  | fuel + 1, c :: cs =>
    match tryMatch (c :: cs) with
    | some n => ansiSubFuel fuel (cs.drop (n - 1))
    | none => c :: ansiSubFuel fuel cs

/-- `strip_ansi_codes` of `backend/ssh_manager.py` / `backend/log_core.py`. -/
def strip_ansi_codes (s : String) : String :=
  ⟨ansiSubFuel s.data.length s.data⟩

/-- The per-line emission step shared by every emitting loop of the sources:
`decoded = line.strip()`; `if decoded: yield strip_ansi_codes(decoded)`. -/
def emitLines (lines : List String) : List String :=
  lines.filterMap fun line =>
    let decoded := pyStrip line
    if decoded = "" then none else some (strip_ansi_codes decoded)

/-! ## `backend/ssh_manager.py` — `RemoteFileReader` -/

/-- Result of one blocking `stdout.readline()` in the follow loop: either the
returned string (`""` means no data yet, which the loop sleeps through), or an
exception. -/
inductive ReadResult where
  | line (s : String)
  | raise
deriving DecidableEq, Repr

/-- Observable events on the SSH session: a `validate_command` call with its
result, and a `client.exec_command` invocation. -/
inductive Ev where
  | check (cmd : String) (ok : Bool)
  | exec (cmd : String)
deriving DecidableEq, Repr

/-- The slice of `server_config` the remote reader consults:
`allowed_paths` and `max_file_size` (`.get('max_file_size', 104857600)`). -/
structure ServerConfig where
  allowed_paths : List String
  max_file_size : Option Int
deriving DecidableEq, Repr

/-- Abstraction of the remote side for one `tail_file` call: whether
`get_connection` yields a client, what the size query's stdout parses to
(`none` models empty output, which `int(... or 0)` turns into 0; the remote
`|| echo 0` likewise maps a failed `stat` to 0), the lines produced by the
history read, and the sequence of follow-phase read results. -/
structure RemoteEnv where
  connected : Bool
  sizeOut : Option Int
  historyLines : List String
  followReads : List ReadResult
deriving DecidableEq, Repr

/-- What a `RemoteFileReader.tail_file` call produces: the records yielded
(their `"data"` fields), the session event trace, and whether a connection
was requested from the pool. -/
structure TailOut where
  records : List String
  trace : List Ev
  connAttempted : Bool
deriving DecidableEq, Repr

/-- The size-query command `cmd_check` built by `tail_file`. -/
def cmdCheckOf (p : String) : String :=
  "stat -c %s " ++ p ++ " 2>/dev/null || echo 0"

/-- The history command `cmd_history` built by `tail_file`. -/
def cmdHistoryOf (readSize : Int) (p : String) : String :=
  "tail -c " ++ toString readSize ++ " " ++ p

/-- The follow command `cmd_tail` built by `tail_file`. -/
def cmdTailOf (p : String) : String :=
  "tail -f " ++ p

/-- The truncate command built by `clear_file`. -/
def cmdTruncateOf (p : String) : String :=
  "truncate -s 0 " ++ p

/-- The `find` command built by `list_files`. -/
def cmdFindOf (recursive : Bool) (dir pattern : String) : String :=
  if recursive then
    "find '" ++ dir ++ "' -type f -name '" ++ pattern ++ "'"
  else
    "find '" ++ dir ++ "' -maxdepth 1 -type f -name '" ++ pattern ++ "'"

/-- The `while True` follow loop of `tail_file`: a non-empty stripped line is
ANSI-stripped and yielded, an empty read sleeps briefly and retries, and an
exception breaks out of the loop (ending the generator with no further
record).  The list is the finite sequence of read results observed before the
consumer stops. -/
def remoteFollow : List ReadResult → List String
  | [] => []
  | ReadResult.line s :: rest =>
    (if pyStrip s = "" then [] else [strip_ansi_codes (pyStrip s)]) ++ remoteFollow rest
  | ReadResult.raise :: _ => []

/-- `RemoteFileReader.tail_file`.  Mirrors the source's control flow: path
validation, connection acquisition, unvalidated size query, size check,
unvalidated history read, validated follow command, follow loop. -/
def tail_file (cwd : String) (cfg : ServerConfig) (file_path : String)
    (env : RemoteEnv) : TailOut :=
  if ¬ validate_path cwd file_path cfg.allowed_paths then
    ⟨["[SECURITY] Access denied: " ++ file_path], [], false⟩
  else if ¬ env.connected then
    ⟨["[ERROR] Failed to connect to remote server"], [], true⟩
  else
    let max_size := cfg.max_file_size.getD 104857600
    let file_size := env.sizeOut.getD 0
    let tr0 := [Ev.exec (cmdCheckOf file_path)]
    if ¬ check_file_size file_size max_size then
      ⟨["[ERROR] File too large: " ++ toString file_size ++ " bytes (max: " ++
        toString max_size ++ ")"], tr0, true⟩
    else
      let withHistory : List String × List Ev :=
        if 0 < file_size then
          (emitLines env.historyLines,
           tr0 ++ [Ev.exec (cmdHistoryOf (min file_size 10240) file_path)])
        else ([], tr0)
      let cmd_tail := cmdTailOf file_path
      let ok := validate_command cmd_tail
      let tr1 := withHistory.2 ++ [Ev.check cmd_tail ok]
      if ¬ ok then
        ⟨withHistory.1 ++ ["[SECURITY] Command rejected: " ++ cmd_tail], tr1, true⟩
      else
        ⟨withHistory.1 ++ remoteFollow env.followReads,
         tr1 ++ [Ev.exec cmd_tail], true⟩

/-- What a `RemoteFileReader.clear_file` call produces. -/
structure ClearOut where
  ok : Bool
  trace : List Ev
  connAttempted : Bool
deriving DecidableEq, Repr

/-- `RemoteFileReader.clear_file`: path validation, connection, then the
truncate command issued with no `validate_command` check; fails when the
remote stderr is non-empty. -/
def clear_file (cwd : String) (cfg : ServerConfig) (file_path : String)
    (connected : Bool) (stderrOut : String) : ClearOut :=
  if ¬ validate_path cwd file_path cfg.allowed_paths then
    ⟨false, [], false⟩
  else if ¬ connected then
    ⟨false, [], true⟩
  else
    let tr := [Ev.exec (cmdTruncateOf file_path)]
    if pyStrip stderrOut ≠ "" then ⟨false, tr, true⟩ else ⟨true, tr, true⟩

/-- `posixpath.basename`: everything after the last slash. -/
def basenameL (p : List Char) : List Char :=
  (p.reverse.takeWhile (fun c => c ≠ '/')).reverse

/-- The stdout-collection loop of `list_files`: at most 1000 files, blank
lines skipped without counting. -/
def collectFiles : List String → Nat → List (String × String)
  | [], _ => []
  | l :: rest, cnt =>
    if 1000 ≤ cnt then []
    else
      let fp := pyStrip l
      if fp ≠ "" then (fp, ⟨basenameL fp.data⟩) :: collectFiles rest (cnt + 1)
      else collectFiles rest cnt

/-- What a `RemoteFileReader.list_files` call produces: the `(path, name)`
descriptors, the session event trace, and whether a connection was
requested. -/
structure ListOut where
  files : List (String × String)
  trace : List Ev
  connAttempted : Bool
deriving DecidableEq, Repr

/-- `RemoteFileReader.list_files`: path validation, connection, a `find`
command that is `validate_command`-checked before execution, and the capped
stdout collection. -/
def list_files (cwd : String) (cfg : ServerConfig) (directory pattern : String)
    (recursive : Bool) (connected : Bool) (stdoutLines : List String) : ListOut :=
  if ¬ validate_path cwd directory cfg.allowed_paths then
    ⟨[], [], false⟩
  else if ¬ connected then
    ⟨[], [], true⟩
  else
    let cmd := cmdFindOf recursive directory pattern
    let ok := validate_command cmd
    if ¬ ok then ⟨[], [Ev.check cmd ok], true⟩
    else ⟨collectFiles stdoutLines 0, [Ev.check cmd ok, Ev.exec cmd], true⟩

/-! ## `backend/ssh_manager.py` — `SSHConnectionPool.cleanup_idle_connections` -/

/-- One entry of `SSHConnectionPool.connections`: the dictionary key
(`host:port`), `last_used`, and the idle timeout its stored server profile
carries (the spec's `ServerProfile.idleTimeoutSeconds`; the code stores the
config dict in the entry but never reads a timeout from it). -/
structure PoolEntry where
  serverId : String
  lastUsed : Int
  idleTimeoutSeconds : Int
deriving DecidableEq, Repr

/-- `SSHConnectionPool.cleanup_idle_connections`, with `time.time()` and the
pool-wide `self.timeout` passed explicitly: collect the ids idle longer than
the pool timeout, then delete them from the map (closing each handle). -/
def cleanup_idle_connections (now timeout : Int) (conns : List PoolEntry) :
    List PoolEntry :=
  let to_remove := (conns.filter fun e => timeout < now - e.lastUsed).map (·.serverId)
  to_remove.foldl (fun m sid => m.filter fun e => e.serverId ≠ sid) conns

/-- Modelled from the spec: `reapIdle()` as §4.2 words it — "removes and
closes entries idle longer than their profile's timeout", the profile's
`idleTimeoutSeconds` being per `ServerProfile`.  Used only to compare against
the source's `cleanup_idle_connections`. -/
def reapIdleSpec (now : Int) (conns : List PoolEntry) : List PoolEntry :=
  conns.filter fun e => now - e.lastUsed ≤ e.idleTimeoutSeconds

/-! ## `backend/log_core.py` — the local follow loop of `LogManager.tail_file` -/

/-- One wake-up of the local follow loop: the 2-second timeout fires (with
the file either still present or gone), the watcher signals a modification
(the file then has content `newContent`), or the read attempt raises
`OSError` (mid-rotation; swallowed with a short sleep). -/
inductive WakeEvent where
  | timeout (fileExists : Bool)
  | modified (newContent : String)
  | oserror
deriving DecidableEq, Repr

/-- Python text-file line iteration: split after each `'\n'`, keeping the
newline; a final unterminated chunk is still a line. -/
def pyLines : List Char → List String
  | [] => []
  | c :: cs =>
    if c = '\n' then "\n" :: pyLines cs
    else
      match pyLines cs with
      | [] => [⟨[c]⟩]
      | l :: ls => (⟨c :: l.data⟩) :: ls

/-- One iteration of the body of the local follow loop after a `modified`
wake-up (`log_core.py`, the `try` block after the event wait): compare the
file size against the tracked cursor, emit the truncation sentinel and reset
the cursor on shrink, then read from the cursor to EOF, emitting the
non-empty ANSI-stripped lines; the new cursor is `fp.tell()` = EOF. -/
def followStep (content : String) (pos : Nat) : List String × Nat :=
  let new_size := content.data.length
  let sentinel := if new_size < pos then ["[SYSTEM] File truncated. Reloading..."] else []
  let current_position := if new_size < pos then 0 else pos
  (sentinel ++ emitLines (pyLines (content.data.drop current_position)), new_size)

/-- The `while True` follow loop of the local `LogManager.tail_file`,
processing the finite sequence of wake-ups observed before the consumer
cancels: a timeout wake-up with the file missing emits the disappearance
sentinel and breaks; a timeout with the file present just re-waits; a
modification runs `followStep`; an `OSError` is swallowed and the loop
continues unchanged. -/
def followLoop : List WakeEvent → Nat → List String
  | [], _ => []
  | WakeEvent.timeout ex :: rest, pos =>
    if ex then followLoop rest pos else ["[SYSTEM] File disappeared."]
  | WakeEvent.modified c :: rest, pos =>
    (followStep c pos).1 ++ followLoop rest (followStep c pos).2
  | WakeEvent.oserror :: rest, pos => followLoop rest pos

/-! ## The claim language for command checking

`execsChecked exceptions trace acc` says that every `exec` event of `trace`
is either one of the `exceptions` or occurs after a passing
`validate_command` check of the same command text (`acc` accumulates the
commands checked so far). -/

def execsChecked (exceptions : List String) : List Ev → List String → Bool
  | [], _ => true
  | Ev.check c true :: r, acc => execsChecked exceptions r (c :: acc)
  | Ev.check _ false :: r, acc => execsChecked exceptions r acc
  | Ev.exec c :: r, acc =>
    (exceptions.contains c || acc.contains c) && execsChecked exceptions r acc

/-! ## Helper lemmas: Python `split` versus `strip` -/

theorem pyWordsAux_nil (acc : List Char) :
    pyWordsAux [] acc = if acc = [] then [] else [⟨acc.reverse⟩] := by
  cases acc with
  | nil => rfl
  | cons c cs => rfl

theorem pyWordsAux_cons_space (c : Char) (cs acc : List Char)
    (h : pyIsSpace c = true) :
    pyWordsAux (c :: cs) acc =
      (if acc = [] then [] else [⟨acc.reverse⟩]) ++ pyWordsAux cs [] := by
  cases acc with
  | nil => simp only [pyWordsAux, h]; simp
  | cons a as => simp only [pyWordsAux, h]; simp

theorem pyWordsAux_cons_nonspace (c : Char) (cs acc : List Char)
    (h : pyIsSpace c = false) :
    pyWordsAux (c :: cs) acc = pyWordsAux cs (c :: acc) := by
  cases acc with
  | nil => simp only [pyWordsAux, h]
  | cons a as => simp only [pyWordsAux, h]

theorem pyWordsAux_all_space (l : List Char) (h : ∀ c ∈ l, pyIsSpace c = true)
    (acc : List Char) : pyWordsAux l acc = pyWordsAux [] acc := by
  induction l generalizing acc with
  | nil => rfl
  | cons c cs ih =>
    have hc : pyIsSpace c = true := h c (List.mem_cons_self c cs)
    have hcs : ∀ x ∈ cs, pyIsSpace x = true := fun x hx => h x (List.mem_cons_of_mem c hx)
    rw [pyWordsAux_cons_space c cs acc hc, ih hcs [], pyWordsAux_nil, pyWordsAux_nil]
    cases acc <;> simp

theorem pyWordsAux_append_space (l₁ l₂ : List Char)
    (h : ∀ c ∈ l₂, pyIsSpace c = true) (acc : List Char) :
    pyWordsAux (l₁ ++ l₂) acc = pyWordsAux l₁ acc := by
  induction l₁ generalizing acc with
  | nil => simpa using pyWordsAux_all_space l₂ h acc
  | cons c cs ih =>
    by_cases hc : pyIsSpace c = true
    · rw [List.cons_append, pyWordsAux_cons_space c (cs ++ l₂) acc hc,
        pyWordsAux_cons_space c cs acc hc, ih]
    · rw [List.cons_append,
        pyWordsAux_cons_nonspace c (cs ++ l₂) acc (by simpa using hc),
        pyWordsAux_cons_nonspace c cs acc (by simpa using hc), ih]

theorem pyWordsL_dropWhile (l : List Char) :
    pyWordsL (l.dropWhile pyIsSpace) = pyWordsL l := by
  induction l with
  | nil => rfl
  | cons c cs ih =>
    by_cases hc : pyIsSpace c = true
    · rw [List.dropWhile_cons]
      simp only [hc, if_true]
      rw [ih]
      unfold pyWordsL
      rw [pyWordsAux_cons_space c cs [] hc]
      simp
    · rw [List.dropWhile_cons]
      simp [hc]

theorem pyWordsL_pyStripL (l : List Char) :
    pyWordsL (pyStripL l) = pyWordsL l := by
  have hsplit : l.dropWhile pyIsSpace =
      pyStripL l ++ ((l.dropWhile pyIsSpace).reverse.takeWhile pyIsSpace).reverse := by
    unfold pyStripL
    conv_lhs => rw [← List.reverse_reverse (l.dropWhile pyIsSpace),
      ← List.takeWhile_append_dropWhile (p := pyIsSpace)
        (l := (l.dropWhile pyIsSpace).reverse)]
    rw [List.reverse_append]
  have htail : ∀ c ∈ ((l.dropWhile pyIsSpace).reverse.takeWhile pyIsSpace).reverse,
      pyIsSpace c = true := by
    intro c hc
    rw [List.mem_reverse] at hc
    exact List.mem_takeWhile_imp hc
  calc pyWordsL (pyStripL l)
      = pyWordsL (pyStripL l ++
          ((l.dropWhile pyIsSpace).reverse.takeWhile pyIsSpace).reverse) := by
        unfold pyWordsL
        rw [pyWordsAux_append_space _ _ htail]
    _ = pyWordsL (l.dropWhile pyIsSpace) := by rw [← hsplit]
    _ = pyWordsL l := pyWordsL_dropWhile l

/-- The `cmd_name` computed by `validate_command` is the first
whitespace-delimited token of the command. -/
theorem validate_command_eq (cmd : String) :
    validate_command cmd =
      (ALLOWED_COMMANDS.contains (firstToken cmd) &&
        !(DANGEROUS_CHARS.any fun c => cmd.data.contains c)) := by
  unfold validate_command firstToken
  have hwords : pyWordsL (pyStripL cmd.data) = pyWordsL cmd.data :=
    pyWordsL_pyStripL cmd.data
  by_cases hs : pyStripL cmd.data = []
  · have hnil : pyWordsL cmd.data = [] := by rw [← hwords, hs]; rfl
    have hempty : ALLOWED_COMMANDS.contains ("" : String) = false := by decide
    simp only [hs, if_true, hnil, List.headD_nil, hempty]
    simp
  · simp only [hs, if_false, hwords]
    cases ha : ALLOWED_COMMANDS.contains ((pyWordsL cmd.data).headD "") with
    | false => simp [ha]
    | true =>
      cases hd : (DANGEROUS_CHARS.any fun c => cmd.data.contains c) with
      | false => simp [ha, hd]
      | true => simp [ha, hd]

/-! ## Helper lemmas: first tokens of the built remote commands -/

theorem data_append (s t : String) : (s ++ t).data = s.data ++ t.data := by
  cases s with
  | mk l => cases t with
    | mk m => rfl

theorem pyWordsAux_word (wcs : List Char) (hw : ∀ c ∈ wcs, pyIsSpace c = false)
    (r : List Char) :
    ∀ acc : List Char, acc.reverse ++ wcs ≠ [] →
      pyWordsAux (wcs ++ ' ' :: r) acc = ⟨acc.reverse ++ wcs⟩ :: pyWordsAux r [] := by
  induction wcs with
  | nil =>
    intro acc hne
    have hacc : acc ≠ [] := by
      intro h
      exact hne (by simp [h])
    rw [List.nil_append, pyWordsAux_cons_space ' ' r acc (by decide)]
    simp [hacc]
  | cons c wcs ih =>
    intro acc hne
    have hc : pyIsSpace c = false := hw c (List.mem_cons_self c wcs)
    have hw' : ∀ x ∈ wcs, pyIsSpace x = false := fun x hx =>
      hw x (List.mem_cons_of_mem c hx)
    rw [List.cons_append, pyWordsAux_cons_nonspace c _ acc hc,
      ih hw' (c :: acc) (by simp)]
    simp

theorem firstToken_word_space (w : String) (r : List Char)
    (hw : ∀ c ∈ w.data, pyIsSpace c = false) (hne : w.data ≠ []) :
    (pyWordsL (w.data ++ ' ' :: r)).headD "" = w := by
  unfold pyWordsL
  rw [pyWordsAux_word w.data hw r [] (by simpa using hne)]
  simp

theorem firstToken_cmdCheckOf (p : String) : firstToken (cmdCheckOf p) = "stat" := by
  have hdata : (cmdCheckOf p).data =
      "stat".data ++ ' ' :: ("-c %s ".data ++ (p.data ++ " 2>/dev/null || echo 0".data)) := by
    show (("stat -c %s " ++ p) ++ " 2>/dev/null || echo 0").data = _
    rw [data_append, data_append,
      show "stat -c %s ".data = "stat".data ++ ' ' :: "-c %s ".data from by decide]
    simp
  unfold firstToken
  rw [hdata]
  exact firstToken_word_space "stat" _ (by decide) (by decide)

theorem firstToken_cmdTruncateOf (p : String) :
    firstToken (cmdTruncateOf p) = "truncate" := by
  have hdata : (cmdTruncateOf p).data =
      "truncate".data ++ ' ' :: ("-s 0 ".data ++ p.data) := by
    show ("truncate -s 0 " ++ p).data = _
    rw [data_append,
      show "truncate -s 0 ".data = "truncate".data ++ ' ' :: "-s 0 ".data from by decide]
    simp
  unfold firstToken
  rw [hdata]
  exact firstToken_word_space "truncate" _ (by decide) (by decide)

/-- The size query built by `tail_file` never passes `validate_command`:
its first token `stat` is not allow-listed (it also contains `|` and `>`). -/
theorem validate_command_cmdCheckOf (p : String) :
    validate_command (cmdCheckOf p) = false := by
  rw [validate_command_eq, firstToken_cmdCheckOf,
    show ALLOWED_COMMANDS.contains "stat" = false from by decide]
  simp

/-- The truncate command built by `clear_file` never passes
`validate_command`: its first token `truncate` is not allow-listed. -/
theorem validate_command_cmdTruncateOf (p : String) :
    validate_command (cmdTruncateOf p) = false := by
  rw [validate_command_eq, firstToken_cmdTruncateOf,
    show ALLOWED_COMMANDS.contains "truncate" = false from by decide]
  simp

/-! ## Helper lemmas: substring search, ANSI matching, pool reaping -/

theorem containsSubL_iff (pat l : List Char) :
    containsSubL pat l = true ↔ pat <:+: l := by
  induction l with
  | nil => simp [containsSubL, List.isEmpty_iff, List.infix_nil]
  | cons c cs ih =>
    simp [containsSubL, List.infix_cons_iff, ih, List.isPrefixOf_iff_prefix]

theorem takeWhile_all_concat (p : Char → Bool) (ds : List Char) (x : Char)
    (h : ds.all p = true) (hx : p x = false) :
    (ds ++ [x]).takeWhile p = ds := by
  induction ds with
  | nil => simp [List.takeWhile_cons, hx]
  | cons c cs ih =>
    rw [List.all_cons, Bool.and_eq_true] at h
    rw [List.cons_append, List.takeWhile_cons, h.1]
    simp [ih h.2]

theorem tryEsc_bracket (l : List Char) : tryEsc ('[' :: l) = none := rfl

theorem tryBare_eval (ds : List Char) (h : ds.all digitSemiChar = true)
    (hne : ds ≠ []) : tryBare ('[' :: (ds ++ ['m'])) = some (ds.length + 2) := by
  have htw : (ds ++ ['m']).takeWhile digitSemiChar = ds :=
    takeWhile_all_concat _ ds 'm' h (by decide)
  have hlen : ¬ ds.length = 0 := by simpa using hne
  have hred : tryBare ('[' :: (ds ++ ['m'])) =
      (if ((ds ++ ['m']).takeWhile digitSemiChar).length = 0 then none else
        match (ds ++ ['m']).drop ((ds ++ ['m']).takeWhile digitSemiChar).length with
        | 'm' :: _ => some (((ds ++ ['m']).takeWhile digitSemiChar).length + 2)
        | _ => none) := rfl
  rw [hred, htw]
  simp only [hlen, if_false]
  rw [List.drop_left]
  rfl

theorem tryMatch_bare (ds : List Char) (h : ds.all digitSemiChar = true)
    (hne : ds ≠ []) : tryMatch ('[' :: (ds ++ ['m'])) = some (ds.length + 2) := by
  unfold tryMatch
  rw [tryEsc_bracket, tryBare_eval ds h hne]

theorem foldl_removeKey (ids : List String) :
    ∀ m : List PoolEntry,
      ids.foldl (fun m sid => m.filter fun e => e.serverId ≠ sid) m =
        m.filter (fun e => e.serverId ∉ ids) := by
  induction ids with
  | nil => intro m; simp
  | cons i rest ih =>
    intro m
    rw [List.foldl_cons, ih, List.filter_filter]
    apply List.filter_congr
    intro e _
    by_cases h1 : e.serverId = i <;> by_cases h2 : e.serverId ∈ rest <;>
      simp [h1, h2]

/-! ## Claim theorems -/

/-- C1, counterexample: with path `/var/log/app.log` allowed and the remote
reachable, `tail_file` executes the size-query command with no preceding
`validate_command` check at all, and that command (first token `stat`,
containing `|` and `>`) fails `validate_command` — refuting the claim that
every remote shell invocation is preceded, in the same call, by a passing
Security Validator command check and uses only allow-listed commands. -/
theorem c1_unchecked_size_query :
    execsChecked []
      (tail_file "/" ⟨["/var/log"], none⟩ "/var/log/app.log"
        ⟨true, some 5, [], []⟩).trace [] = false
    ∧ Ev.exec (cmdCheckOf "/var/log/app.log") ∈
      (tail_file "/" ⟨["/var/log"], none⟩ "/var/log/app.log"
        ⟨true, some 5, [], []⟩).trace
    ∧ validate_command (cmdCheckOf "/var/log/app.log") = false := by
  decide

/-- C1, amended: the directory listing's `find` command and the follow
command are each preceded, in the same call, by a passing `validate_command`
check; but the file-size query and the backlog/history read of `tail_file`,
and the truncate of `clear_file`, are issued with no command check (they are
the only unchecked executions), and the size query and the truncate are not
allow-listed commands. -/
theorem c1_command_checks_amended :
    (∀ cwd cfg dir pat rec conn outl,
      execsChecked [] (list_files cwd cfg dir pat rec conn outl).trace [] = true)
    ∧ (∀ cwd cfg p env,
      execsChecked [cmdCheckOf p, cmdHistoryOf (min (env.sizeOut.getD 0) 10240) p]
        (tail_file cwd cfg p env).trace [] = true)
    ∧ (∀ cwd cfg p conn serr,
      (clear_file cwd cfg p conn serr).trace = [] ∨
        (clear_file cwd cfg p conn serr).trace = [Ev.exec (cmdTruncateOf p)])
    ∧ (∀ p, validate_command (cmdCheckOf p) = false ∧
        validate_command (cmdTruncateOf p) = false) := by
  refine ⟨?_, ?_, ?_, fun p => ⟨validate_command_cmdCheckOf p, validate_command_cmdTruncateOf p⟩⟩
  · intro cwd cfg dir pat rec conn outl
    unfold list_files
    by_cases hv : validate_path cwd dir cfg.allowed_paths
    · by_cases hc : conn = true
      · cases hok : validate_command (cmdFindOf rec dir pat) <;>
          simp [hv, hc, hok, execsChecked, List.contains_cons]
      · simp [hv, hc, execsChecked]
    · simp [hv, execsChecked]
  · intro cwd cfg p env
    unfold tail_file
    by_cases hv : validate_path cwd p cfg.allowed_paths
    · by_cases hc : env.connected = true
      · cases hsz : check_file_size (env.sizeOut.getD 0) (cfg.max_file_size.getD 104857600) with
        | false => simp [hv, hc, hsz, execsChecked, List.contains_cons]
        | true =>
          by_cases hpos : (0 : Int) < env.sizeOut.getD 0 <;>
            cases hok : validate_command (cmdTailOf p) <;>
              simp [hv, hc, hsz, hpos, hok, execsChecked, List.contains_cons]
      · simp [hv, hc, execsChecked]
    · simp [hv, execsChecked]
  · intro cwd cfg p conn serr
    unfold clear_file
    by_cases hv : validate_path cwd p cfg.allowed_paths
    · by_cases hc : conn = true
      · right
        by_cases hs : pyStrip serr = "" <;> simp [hv, hc, hs]
      · left
        simp [hv, hc]
    · left
      simp [hv]

/-- C2, counterexample: a stream that has entered the follow phase (the
follow command was executed) and whose first blocking read raises ends with
zero records — not with one terminal `[ERROR]` record as claimed. -/
theorem c2_silent_read_exception :
    (tail_file "/" ⟨["/var/log"], none⟩ "/var/log/app.log"
      ⟨true, some 0, [], [ReadResult.raise]⟩).records = []
    ∧ Ev.exec (cmdTailOf "/var/log/app.log") ∈
      (tail_file "/" ⟨["/var/log"], none⟩ "/var/log/app.log"
        ⟨true, some 0, [], [ReadResult.raise]⟩).trace := by
  decide

/-- C2, amended: an exception raised by a blocking line read ends the remote
follow stream exactly where it stood — nothing further is emitted (in
particular no `[ERROR]` record; the exception is only logged server-side)
and the remaining reads are abandoned, so no reconnect is attempted inside
the stream. -/
theorem c2_read_exception_ends_stream :
    ∀ (pre rest : List ReadResult),
      remoteFollow (pre ++ ReadResult.raise :: rest) = remoteFollow pre := by
  intro pre rest
  induction pre with
  | nil => rfl
  | cons hd tl ih =>
    cases hd with
    | line s => simp [remoteFollow, ih]
    | raise => simp [remoteFollow]

/-- C3: `validate_path` accepts by a plain string-prefix test on the
canonical path: with allow-list `["/var/log"]` it accepts the sibling paths
`/var/logs/app.log` and `/var/logXYZ/app.log`, although neither lies under
the `/var/log/` directory. -/
theorem c3_prefix_without_separator :
    validate_path "/" "/var/logs/app.log" ["/var/log"] = true
    ∧ validate_path "/" "/var/logXYZ/app.log" ["/var/log"] = true
    ∧ "/var/log/".data.isPrefixOf "/var/logs/app.log".data = false
    ∧ "/var/log/".data.isPrefixOf "/var/logXYZ/app.log".data = false := by
  decide

/-- C4: when the target path fails `validate_path`, the remote tail stream
is exactly one terminal `[SECURITY]` record; no remote command is issued and
no connection is requested from the pool. -/
theorem c4_security_denial_is_terminal :
    ∀ cwd cfg p env, validate_path cwd p cfg.allowed_paths = false →
      tail_file cwd cfg p env =
        ⟨["[SECURITY] Access denied: " ++ p], [], false⟩ := by
  intro cwd cfg p env h
  simp [tail_file, h]

/-- C4, witness: scenario B — allow-list `["/var/log"]`, tail of
`/etc/passwd`. -/
theorem c4_security_denial_witness :
    validate_path "/" "/etc/passwd" ["/var/log"] = false
    ∧ tail_file "/" ⟨["/var/log"], none⟩ "/etc/passwd" ⟨true, some 0, [], []⟩ =
      ⟨["[SECURITY] Access denied: /etc/passwd"], [], false⟩ := by
  refine ⟨by decide, ?_⟩
  rw [c4_security_denial_is_terminal "/" ⟨["/var/log"], none⟩ "/etc/passwd"
    ⟨true, some 0, [], []⟩ (by decide)]
  decide

/-- C5: a failed size query falls back to size 0 (an empty query output
behaves exactly like `0`), and a size failing `check_file_size` against the
profile's maximum makes the stream one terminal `[ERROR]` record citing the
actual and maximum sizes, with only the size query executed — no tail
command is issued. -/
theorem c5_size_exceeded_is_terminal :
    (∀ (cwd : String) (cfg : ServerConfig) (p : String) (env : RemoteEnv),
      validate_path cwd p cfg.allowed_paths = true → env.connected = true →
      check_file_size (env.sizeOut.getD 0) (cfg.max_file_size.getD 104857600) = false →
      tail_file cwd cfg p env =
        ⟨["[ERROR] File too large: " ++ toString (env.sizeOut.getD 0) ++
          " bytes (max: " ++ toString (cfg.max_file_size.getD 104857600) ++ ")"],
         [Ev.exec (cmdCheckOf p)], true⟩)
    ∧ (∀ (cwd : String) (cfg : ServerConfig) (p : String) (env : RemoteEnv),
      tail_file cwd cfg p { env with sizeOut := none } =
        tail_file cwd cfg p { env with sizeOut := some 0 }) := by
  constructor
  · intro cwd cfg p env h1 h2 h3
    simp [tail_file, h1, h2, h3]
  · intro cwd cfg p env
    rfl

/-- C5, witness: scenario C — remote file of 500 MiB against a 100 MiB
maximum. -/
theorem c5_size_exceeded_witness :
    tail_file "/" ⟨["/var/log"], some 104857600⟩ "/var/log/app.log"
      ⟨true, some 524288000, [], []⟩ =
      ⟨["[ERROR] File too large: 524288000 bytes (max: 104857600)"],
       [Ev.exec (cmdCheckOf "/var/log/app.log")], true⟩ := by
  rw [c5_size_exceeded_is_terminal.1 "/" ⟨["/var/log"], some 104857600⟩
    "/var/log/app.log" ⟨true, some 524288000, [], []⟩ (by decide) rfl (by decide)]
  decide

/-- C6: `validate_path` returns false for every path when the allow-list is
empty, and for every path whose canonical form still contains `..`,
regardless of the allow-list. -/
theorem c6_fail_closed :
    ∀ cwd p allowed,
      (allowed = [] → validate_path cwd p allowed = false)
      ∧ (containsSubL "..".data (resolvedPath cwd p) = true →
          validate_path cwd p allowed = false) := by
  intro cwd p allowed
  constructor
  · intro h
    simp [validate_path, h]
  · intro h
    have hl : containsSubL "..".data (pyLowerL (resolvedPath cwd p)) = true := by
      rw [containsSubL_iff] at h ⊢
      have hmap := List.IsInfix.map Char.toLower h
      rw [show ("..".data.map Char.toLower) = "..".data from by decide] at hmap
      exact hmap
    have hd : isDangerousL (resolvedPath cwd p) = true := by
      unfold isDangerousL
      simp [hl]
    simp [validate_path, hd]

/-- C6, witness: an empty allow-list, and a canonical path containing `..`
inside a file name. -/
theorem c6_fail_closed_witness :
    validate_path "/" "/x" ([] : List String) = false
    ∧ validate_path "/" "/a/b..c" ["/a"] = false :=
  ⟨(c6_fail_closed "/" "/x" []).1 rfl,
   (c6_fail_closed "/" "/a/b..c" ["/a"]).2 (by decide)⟩

/-- C7: in the local following phase, a wake-up that finds the file smaller
than the tracked cursor emits the `[SYSTEM]` truncation sentinel, resets the
cursor to 0 (the emitted lines are read from offset 0 of the new content),
and the stream continues with the remaining wake-ups; by contrast the
disappearance sentinel terminates the stream. -/
theorem c7_truncation_is_recoverable :
    (∀ (c : String) (pos : Nat) (rest : List WakeEvent), c.length < pos →
      followLoop (WakeEvent.modified c :: rest) pos =
        "[SYSTEM] File truncated. Reloading..." ::
          (emitLines (pyLines c.data) ++ followLoop rest c.length))
    ∧ (∀ (pos : Nat) (rest : List WakeEvent),
      followLoop (WakeEvent.timeout false :: rest) pos =
        ["[SYSTEM] File disappeared."]) := by
  constructor
  · intro c pos rest h
    simp [followLoop, followStep, h]
  · intro pos rest
    simp [followLoop]

/-- C7, witness: a file of 6 characters against a cursor at 100, followed by
a quiet poll cycle. -/
theorem c7_truncation_witness :
    followLoop [WakeEvent.modified "ab\ncd\n", WakeEvent.timeout true] 100 =
      ["[SYSTEM] File truncated. Reloading...", "ab", "cd"] := by
  rw [c7_truncation_is_recoverable.1 "ab\ncd\n" 100 [WakeEvent.timeout true]
    (by decide)]
  decide

/-- C8: `validate_command` accepts exactly the commands whose first
whitespace-delimited token is allow-listed and whose text contains none of
the dangerous characters; in particular an empty or all-whitespace command
is rejected. -/
theorem c8_validate_command_characterization :
    ∀ cmd : String,
      (validate_command cmd = true ↔
        (firstToken cmd ∈ ALLOWED_COMMANDS ∧
          ∀ c ∈ DANGEROUS_CHARS, cmd.data.contains c = false))
      ∧ (pyStrip cmd = "" → validate_command cmd = false) := by
  intro cmd
  have heq := validate_command_eq cmd
  constructor
  · rw [heq, Bool.and_eq_true, Bool.not_eq_true']
    constructor
    · rintro ⟨h1, h2⟩
      refine ⟨by simpa using h1, ?_⟩
      intro c hc
      have := List.any_eq_false.mp h2 c hc
      simpa using this
    · rintro ⟨h1, h2⟩
      refine ⟨by simpa using h1, List.any_eq_false.mpr ?_⟩
      intro x hx
      have := h2 x hx
      simpa using this
  · intro hs
    have hsl : pyStripL cmd.data = [] := congrArg String.data hs
    have hnil : pyWordsL cmd.data = [] := by
      rw [← pyWordsL_pyStripL, hsl]
      rfl
    rw [heq]
    unfold firstToken
    rw [hnil]
    have h0 : ALLOWED_COMMANDS.contains (([] : List String).headD "") = false := by
      decide
    rw [h0]
    rfl

/-- C8, witness: one accepted and one all-whitespace rejected command. -/
theorem c8_validate_command_witness :
    validate_command "tail -f /var/log/syslog" = true
    ∧ validate_command " \t " = false := by
  constructor
  · exact ((c8_validate_command_characterization "tail -f /var/log/syslog").1).mpr
      ⟨by decide, by decide⟩
  · exact (c8_validate_command_characterization " \t ").2 (by decide)

/-- C9, counterexample: an entry whose stored profile carries an idle
timeout of 1000 s and which has been idle 500 s is nevertheless removed,
because the reaper compares against the pool-wide timeout (here 300 s), not
the profile's — refuting the claim as stated (the spec-worded `reapIdleSpec`
keeps the entry). -/
theorem c9_pool_timeout_counterexample :
    cleanup_idle_connections 500 300 [⟨"h:22", 0, 1000⟩] = []
    ∧ reapIdleSpec 500 [⟨"h:22", 0, 1000⟩] = [⟨"h:22", 0, 1000⟩]
    ∧ ((500 : Int) - 0 ≤ 1000) := by
  decide

/-- C9, amended: `cleanup_idle_connections` removes and closes exactly the
entries idle longer than the pool-wide timeout — the profile's own idle
timeout is never consulted — leaving all other entries unchanged and in
order (server ids are unique, being dictionary keys). -/
theorem c9_reap_idle_amended :
    ∀ (now timeout : Int) (conns : List PoolEntry),
      (conns.map PoolEntry.serverId).Nodup →
      cleanup_idle_connections now timeout conns =
        conns.filter (fun e => now - e.lastUsed ≤ timeout) := by
  intro now timeout conns hnd
  unfold cleanup_idle_connections
  rw [foldl_removeKey]
  apply List.filter_congr
  intro e he
  rw [decide_eq_decide]
  have hmem : e.serverId ∈
      ((conns.filter fun x => timeout < now - x.lastUsed).map fun x => x.serverId) ↔
      timeout < now - e.lastUsed := by
    constructor
    · intro hm
      rcases List.mem_map.mp hm with ⟨x, hxf, hxe⟩
      rcases List.mem_filter.mp hxf with ⟨hxc, hxp⟩
      have hx : x = e := List.inj_on_of_nodup_map hnd hxc he hxe
      rw [hx] at hxp
      simpa using hxp
    · intro hlt
      exact List.mem_map.mpr ⟨e, List.mem_filter.mpr ⟨he, by simpa using hlt⟩, rfl⟩
  rw [← Int.not_lt]
  exact not_congr hmem

/-- C9, witness: a pool with one stale and one fresh entry. -/
theorem c9_reap_idle_witness :
    cleanup_idle_connections 1000 300 [⟨"a", 0, 999⟩, ⟨"b", 900, 999⟩] =
      [⟨"b", 900, 999⟩] := by
  rw [c9_reap_idle_amended 1000 300 [⟨"a", 0, 999⟩, ⟨"b", 900, 999⟩] (by decide)]
  decide

/-- C10: the ANSI stripping deletes not only ESC-prefixed escape sequences
but any bare `[`, digits-or-semicolons, `m` substring with no preceding ESC,
so such literal log content is silently removed from emitted lines. -/
theorem c10_bare_sequences_stripped :
    (∀ ds : List Char, ds ≠ [] → ds.all digitSemiChar = true →
      strip_ansi_codes ⟨'[' :: (ds ++ ['m'])⟩ = "")
    ∧ strip_ansi_codes "\x1b[31mred" = "red"
    ∧ strip_ansi_codes "error: [31m" = "error: "
    ∧ emitLines ["error: [2;10m"] = ["error: "] := by
  refine ⟨?_, by decide, by decide, by decide⟩
  intro ds hne hall
  unfold strip_ansi_codes
  show String.mk (ansiSubFuel ('[' :: (ds ++ ['m'])).length ('[' :: (ds ++ ['m']))) = ""
  have hlen : ('[' :: (ds ++ ['m'])).length = ds.length + 1 + 1 := by
    simp
  rw [hlen]
  have hstep : ansiSubFuel (ds.length + 1 + 1) ('[' :: (ds ++ ['m'])) =
      ansiSubFuel (ds.length + 1) ((ds ++ ['m']).drop (ds.length + 2 - 1)) := by
    simp only [ansiSubFuel, tryMatch_bare ds hall hne]
  rw [hstep]
  have hdrop : (ds ++ ['m']).drop (ds.length + 2 - 1) = [] := by
    have h1 : ds.length + 2 - 1 = (ds ++ ['m']).length := by
      simp
    rw [h1, List.drop_length]
  rw [hdrop]
  rfl

/-- C10, witness: the bare `[31m` is deleted in full. -/
theorem c10_bare_sequences_witness :
    (['3', '1'] : List Char) ≠ []
    ∧ (['3', '1'] : List Char).all digitSemiChar = true
    ∧ strip_ansi_codes "[31m" = "" := by
  refine ⟨by decide, by decide, ?_⟩
  exact c10_bare_sequences_stripped.1 ['3', '1'] (by decide) (by decide)

end TailF
